import Mathlib

/-!
Verification of the connection lifecycle and message-multiplexing engine of
the chrome-remote-interface client, as implemented in src/lib/chrome.js.

The embedding below translates the relevant JavaScript into Lean:

* JSON values become the inductive type `Json`; JavaScript truthiness of a
  value is `jsTruthy`, and truthiness of a possibly absent object field
  (where absence reads as `undefined`, which is falsy) is `fieldTruthy`.
* The JavaScript object `this._callbacks` (chrome.js line 64) is a
  string-keyed dictionary; it is modelled as an association list with
  unique keys, with property read, write and delete given by `jsGet`,
  `jsSet` and `jsDelete`.  JavaScript coerces property keys to strings, so
  keys are the `String()` image of the id value, modelled by `jsToString`.
* An inbound or outbound protocol message is the structure `Message`,
  holding the five fields the engine reads (id, method, params, result,
  error), each an `Option Json` (none = property absent).
* `Chrome._handleMessage` (lines 270-296) is `handleMessageTrace`: it
  returns the list of primitive steps the handler performs, in program
  order, each paired with the dispatcher state in which that step executes,
  together with the final state.  `handleMessage` projects the final state
  and the plain action list.
* `Chrome._enqueueCommand` (lines 299-312) is `enqueueCommand`; the
  outcome of the transport acknowledgement callback of `this._send` is the
  explicit parameter `SendAck`.
* The promise wrapper of `Chrome.sendRaw` (lines 96-108) settles according
  to `promiseSettle`; the `ProtocolError` constructor (lines 15-26) is
  `protocolErrorMessage` together with the `ProtocolError` structure.
* The default target selector (lines 32-51) is `defaultTargetFind` and
  `defaultTarget`.
* The WebSocket close wrapper (lines 223-236) and the close event handler
  installed by `_connect` (lines 260-262) are `closeWs` and `fireWsClose`
  over the WebSocket state `WsState`.
-/

/-- A JSON value, the payload type of every protocol message. -/
inductive Json where
  | null
  | bool (b : Bool)
  | num (n : Int)
  | str (s : String)
  | arr (elems : List Json)
  | obj (fields : List (String × Json))

/-- JavaScript truthiness of a JSON value: null, false, 0 and the empty
string are falsy; every array and object is truthy. -/
def jsTruthy : Json → Bool
  | .null => false
  | .bool b => b
  | .num n => n != 0
  | .str s => s != ""
  | .arr _ => true
  | .obj _ => true

/-- Truthiness of a possibly absent object field: an absent property reads
as `undefined`, which is falsy. -/
def fieldTruthy : Option Json → Bool
  | none => false
  | some j => jsTruthy j

/-- JavaScript `String()` coercion, used when a value becomes a property
key or is interpolated into a template literal.  Arrays render as the
comma-join of their elements, with null elements rendering empty, and
objects render as the usual `[object Object]`. -/
def jsToString : Json → String
  | .null => "null"
  | .bool b => if b then "true" else "false"
  | .num n => toString n
  | .str s => s
  | .arr es => String.intercalate "," (jsToStringArr es)
  | .obj _ => "[object Object]"
where
  /-- Element renderings of an array under `String()`. -/
  jsToStringArr : List Json → List String
    | [] => []
    | .null :: js => "" :: jsToStringArr js
    | j :: js => jsToString j :: jsToStringArr js

/-- Property read on a string-keyed JavaScript object holding callback
tokens: `dict[key]`, yielding `undefined` (none) when the key is absent. -/
def jsGet (dict : List (String × Nat)) (key : String) : Option Nat :=
  (dict.find? (fun p => p.1 == key)).map (fun p => p.2)

/-- Property write `dict[key] = v`: updates the existing entry in place or
appends a new one, as JavaScript objects do. -/
def jsSet (dict : List (String × Nat)) (key : String) (v : Nat) : List (String × Nat) :=
  match dict with
  | [] => [(key, v)]
  | p :: rest => if p.1 == key then (key, v) :: rest else p :: jsSet rest key v

/-- Property removal `delete dict[key]`. -/
def jsDelete (dict : List (String × Nat)) (key : String) : List (String × Nat) :=
  dict.filter (fun p => p.1 != key)

/-- The five message fields read by the engine; none models an absent
property.  Wire shapes: request (id, method, params), reply (id and
result or error), event (method, params). -/
structure Message where
  id : Option Json := none
  method : Option Json := none
  params : Option Json := none
  result : Option Json := none
  error : Option Json := none

/-- Dispatcher state of a session: the command-id counter
`this._nextCommandId` and the pending-callback map `this._callbacks`
(chrome.js lines 64-65).  Callbacks are identified by opaque tokens. -/
structure ChromeState where
  nextCommandId : Nat
  callbacks : List (String × Nat)

/-- The state set up by the constructor: counter 1, empty pending map. -/
def initialChrome : ChromeState := ⟨1, []⟩

/-- First argument a completion callback receives: the literal booleans
passed by `_handleMessage` (lines 280, 282) or an Error instance passed on
transmission failure (line 306), carrying its message. -/
inductive CbFirstArg where
  | flag (b : Bool)
  | errorObj (e : String)
deriving DecidableEq

/-- Externally observable primitive steps of the dispatcher and router:
invoking a pending callback, deleting a pending-map entry, and the three
emissions (`ready`, `event`, the method-named event). -/
inductive RouterAction where
  | invokeCallback (cb : Nat) (error : CbFirstArg) (payload : Option Json)
  | removeCallback (key : String)
  | emitReady
  | emitEvent (message : Message)
  | emitNamed (methodName : Json) (params : Option Json)

/-- Whether an action is the `ready` emission. -/
def RouterAction.isReady : RouterAction → Bool
  | .emitReady => true
  | _ => false

/-- Whether an action is one of the two event emissions. -/
def RouterAction.isEventEmission : RouterAction → Bool
  | .emitEvent _ => true
  | .emitNamed _ _ => true
  | _ => false

/-- Whether an action is a callback invocation. -/
def RouterAction.isInvoke : RouterAction → Bool
  | .invokeCallback _ _ _ => true
  | _ => false

/-- The `message.result || {}` default of line 282. -/
def jsOrDefault (v : Option Json) (d : Json) : Json :=
  match v with
  | some j => if jsTruthy j then j else d
  | none => d

/-- Event half of `_handleMessage` (lines 292-295): a message that was not
treated as a reply emits the generic `event` signal with the whole message
and the method-named signal with the params, provided `message.method` is
truthy; otherwise nothing happens. -/
def eventBranch (m : Message) (st : ChromeState) :
    List (ChromeState × RouterAction) × ChromeState :=
  match m.method with
  | some mv =>
    if jsTruthy mv then
      ([(st, .emitEvent m), (st, .emitNamed mv m.params)], st)
    else ([], st)
  | none => ([], st)

/-- `Chrome._handleMessage` (chrome.js lines 270-296), as the ordered list
of primitive steps it performs, each paired with the dispatcher state in
which the step executes, plus the final state.  If `message.id` is truthy
the message is a command response: the pending callback is looked up
(silent drop when absent), invoked with the error field when that is
truthy and otherwise with `result || {}` (line 279-283), then the entry is
deleted (line 285), and `ready` is emitted when the map has become empty
(lines 287-289).  Otherwise the event branch runs. -/
def handleMessageTrace (m : Message) (st : ChromeState) :
    List (ChromeState × RouterAction) × ChromeState :=
  match m.id with
  | some idv =>
    if jsTruthy idv then
      let key := jsToString idv
      match jsGet st.callbacks key with
      | none => ([], st)
      | some cb =>
        let inv : RouterAction :=
          if fieldTruthy m.error then
            .invokeCallback cb (.flag true) m.error
          else
            .invokeCallback cb (.flag false) (some (jsOrDefault m.result (Json.obj [])))
        let st2 : ChromeState := { st with callbacks := jsDelete st.callbacks key }
        if st2.callbacks.length = 0 then
          ([(st, inv), (st, .removeCallback key), (st2, .emitReady)], st2)
        else
          ([(st, inv), (st, .removeCallback key)], st2)
    else
      eventBranch m st
  | none => eventBranch m st

/-- Final state and plain action list of `_handleMessage`. -/
def handleMessage (m : Message) (st : ChromeState) : ChromeState × List RouterAction :=
  ((handleMessageTrace m st).2, (handleMessageTrace m st).1.map (fun p => p.2))

/-- The handler installed on the transport message signal by `_connect`
(lines 256-259) parses the raw text with `JSON.parse` and forwards to
`_handleMessage`.  `JSON.parse` is modelled by its outcome: some parsed
message, or none when the text is unparseable, in which case the parse
throws and the exception leaves the handler uncaught (`Except.error`). -/
def onMessageData (parsed : Option Message) (st : ChromeState) :
    Except Unit (ChromeState × List RouterAction) :=
  match parsed with
  | none => .error ()
  | some m => .ok (handleMessage m st)

/-- Outcome reported by the transport send acknowledgement callback
(`this._send(text, (err) => ...)`, lines 302-311). -/
inductive SendAck where
  | ok
  | fail (e : String)

/-- `Chrome._enqueueCommand` (chrome.js lines 299-312): allocate the next
command id, build the envelope `(id, ...message)` (an id already present
on the message overrides the allocated one, by spread order), and hand the
serialized envelope to the transport.  On acknowledged failure the
callback is invoked immediately with the Error and nothing is registered;
on success the callback is registered under the envelope id. -/
def enqueueCommand (m : Message) (cb : Nat) (ack : SendAck) (st : ChromeState) :
    ChromeState × List RouterAction :=
  let id := st.nextCommandId
  let st1 : ChromeState := { st with nextCommandId := id + 1 }
  let wireId : Json := match m.id with | some j => j | none => .num (Int.ofNat id)
  match ack with
  | .fail e => (st1, [.invokeCallback cb (.errorObj e) none])
  | .ok => ({ st1 with callbacks := jsSet st1.callbacks (jsToString wireId) cb }, [])

/-- Result of a callback-style `sendRaw` call: new state, immediate
actions, and the returned value, where `promise = none` models the
explicit `return undefined` of line 94. -/
structure SendRawOutcome where
  state : ChromeState
  actions : List RouterAction
  promise : Option Unit

/-- `Chrome.sendRaw` when a callback function is provided (lines 92-94):
enqueue and return undefined. -/
def sendRawWithCallback (m : Message) (cb : Nat) (ack : SendAck) (st : ChromeState) :
    SendRawOutcome :=
  let r := enqueueCommand m cb ack st
  { state := r.1, actions := r.2, promise := none }

/-- The message built by `Chrome.send` (lines 84-87): method plus
`params || {}`, and no id field. -/
def sendMessage (method : String) (params : Option Json) : Message :=
  { method := some (.str method), params := some (jsOrDefault params (Json.obj [])) }

/-- `Chrome.send` with a callback: build the message and delegate to
`sendRaw`. -/
def send (method : String) (params : Option Json) (cb : Nat) (ack : SendAck)
    (st : ChromeState) : SendRawOutcome :=
  sendRawWithCallback (sendMessage method params) cb ack st

/-- A sequence of `send` calls (method, params, callback token), every
transmission acknowledged as successful and no reply yet processed;
returns the final state together with the command ids allocated by the
sends, in call order. -/
def runSendsTrace : List (String × Option Json × Nat) → ChromeState → ChromeState × List Nat
  | [], st => (st, [])
  | (method, params, cb) :: rest, st =>
    let allocated := st.nextCommandId
    let r := runSendsTrace rest (send method params cb .ok st).state
    (r.1, allocated :: r.2)

/-- Property read on a JSON value, `undefined` (none) when the value is
not an object or lacks the property. -/
def jsGetField (j : Json) (k : String) : Option Json :=
  match j with
  | .obj fs => (fs.find? (fun p => p.1 == k)).map (fun p => p.2)
  | _ => none

/-- The displayed message computed by the `ProtocolError` constructor
(chrome.js lines 16-21): destructure `message` from the response and, when
`response.data` is truthy, append the interpolated data in parentheses.
JavaScript corner cases are preserved: a missing message field
concatenated with data renders as the string `undefined`, while a missing
message with no data yields the empty Error message. -/
def protocolErrorMessage (response : Option Json) : String :=
  let msgField := match response with | some j => jsGetField j "message" | none => none
  let dataField := match response with | some j => jsGetField j "data" | none => none
  if fieldTruthy dataField then
    (match msgField with | some j => jsToString j | none => "undefined")
      ++ " (" ++ (match dataField with | some d => jsToString d | none => "") ++ ")"
  else
    match msgField with | some j => jsToString j | none => ""

/-- A constructed protocol error: displayed message plus the original
request and the full remote error response attached by lines 23-24. -/
structure ProtocolError where
  displayedMessage : String
  request : Message
  response : Option Json

/-- Settlement of the promise returned by `sendRaw` without a callback. -/
inductive PromiseOutcome where
  | fulfilled (response : Option Json)
  | rejectedError (e : String)
  | rejectedProtocol (pe : ProtocolError)

/-- The completion closure registered by the promise-style `sendRaw`
(chrome.js lines 97-107): a falsy error fulfills with the response; a
truthy error rejects, with the raw value when it is an Error instance
(low-level transmission failure) and otherwise with a constructed
`ProtocolError` carrying the original request and the response. -/
def promiseSettle (request : Message) (error : CbFirstArg) (response : Option Json) :
    PromiseOutcome :=
  match error with
  | .flag false => .fulfilled response
  | .flag true => .rejectedProtocol ⟨protocolErrorMessage response, request, response⟩
  | .errorObj e => .rejectedError e

/-- A discovered target descriptor, as read by the default selector. -/
structure Target where
  id : String
  type : String
  webSocketDebuggerUrl : Option String
deriving DecidableEq

/-- The truthiness test `target.webSocketDebuggerUrl` of line 38: the
property must be present with a non-empty string. -/
def wsUrlTruthy (t : Target) : Bool :=
  match t.webSocketDebuggerUrl with
  | some s => s != ""
  | none => false

/-- The `targets.find` scan of lines 37-44 with its `backup` side effect
(line 39): walk the list; each entry with a truthy debugger URL becomes
the backup if none is recorded yet, and the scan stops at the first such
entry whose type is `page`.  Returns the found entry and the backup. -/
def defaultTargetFind : List Target → Option Target → Option Target × Option Target
  | [], backup => (none, backup)
  | t :: ts, backup =>
    if wsUrlTruthy t then
      let backup2 := match backup with | some b => some b | none => some t
      if t.type == "page" then (some t, backup2) else defaultTargetFind ts backup2
    else
      defaultTargetFind ts backup

/-- The default target selector (chrome.js lines 32-51): the found page
target, else the backup, else the `No inspectable targets` error. -/
def defaultTarget (targets : List Target) : Except String Target :=
  let r := defaultTargetFind targets none
  match r.1 with
  | some t => .ok t
  | none =>
    match r.2 with
    | some t => .ok t
    | none => .error "No inspectable targets"

/-- A listener currently registered on the WebSocket close signal: the
handler installed by `_connect` that emits `disconnect` (lines 260-262),
or the once-listener installed by the close wrapper carrying the caller
completion callback (lines 230-233). -/
inductive CloseListener where
  | emitDisconnect
  | userCloseCallback (cb : Nat)
deriving DecidableEq

/-- WebSocket state as the close wrapper observes it: the `readyState`
(0 connecting, 1 open, 2 closing, 3 closed) and the list of listeners on
the close signal, in registration order. -/
structure WsState where
  readyState : Nat
  closeListeners : List CloseListener
deriving DecidableEq

/-- Externally observable outcomes of the close machinery. -/
inductive CloseAction where
  | closeCallbackInvoked (cb : Nat)
  | disconnectEmitted
deriving DecidableEq

/-- A connected session transport: the socket is open and `_connect` has
installed the close handler that emits `disconnect`. -/
def connectedWs : WsState := ⟨1, [.emitDisconnect]⟩

/-- The `this._close` wrapper for the WebSocket transport (chrome.js lines
223-236): when the socket is already closed (readyState 3) the completion
callback fires immediately; otherwise every listener on the close signal
is removed (suppressing the disconnect notification for this
caller-initiated shutdown), a once-listener that will run the completion
callback is installed, and `ws.close()` moves a not-yet-closing socket to
the closing state. -/
def closeWs (cb : Nat) (ws : WsState) : WsState × List CloseAction :=
  if ws.readyState == 3 then
    (ws, [.closeCallbackInvoked cb])
  else
    ({ readyState := if ws.readyState ≤ 1 then 2 else ws.readyState,
       closeListeners := [.userCloseCallback cb] }, [])

/-- Delivery of the WebSocket close event: the socket reaches readyState 3
and each registered close listener runs in order; the `_connect` handler
emits `disconnect` (line 261), while the once-listener of the close
wrapper removes all listeners and invokes the completion callback (lines
230-233). -/
def fireWsClose (ws : WsState) : WsState × List CloseAction :=
  (⟨3, []⟩,
    ws.closeListeners.map (fun l =>
      match l with
      | .emitDisconnect => .disconnectEmitted
      | .userCloseCallback cb => .closeCallbackInvoked cb))


/-!
Further definitions: the decimal-rendering reference used to reason about
pending-map keys, the closed form of the pending map after a burst of
sends, and definitions following the wording of the specification, kept
for comparison against the code-derived definitions above.
-/

/-- Decimal digit characters of a natural number, most significant first;
a reference renderer for reasoning about `Nat.repr`. -/
def decimalDigits (n : Nat) : List Char :=
  if n < 10 then [Nat.digitChar n]
  else decimalDigits (n / 10) ++ [Nat.digitChar (n % 10)]
decreasing_by exact Nat.div_lt_self (by omega) (by omega)

/-- Numeric value of a decimal digit string, inverse of
`decimalDigits`. -/
def decimalValue (cs : List Char) : Nat :=
  cs.foldl (fun a c => a * 10 + (c.toNat - 48)) 0

/-- The pending-map key of an allocated command id: the JavaScript string
image of the id number. -/
def idKey (n : Nat) : String := jsToString (Json.num (Int.ofNat n))

/-- The pending map produced by registering callbacks under consecutive
ids starting at `startId`. -/
def expectedCallbacks : Nat → List Nat → List (String × Nat)
  | _, [] => []
  | startId, cb :: rest => (idKey startId, cb) :: expectedCallbacks (startId + 1) rest

/-- The arguments `_handleMessage` passes to a matched reply callback:
error flag and payload, per lines 279-283. -/
def replyInvocationArgs (m : Message) : CbFirstArg × Option Json :=
  if fieldTruthy m.error then (.flag true, m.error)
  else (.flag false, some (jsOrDefault m.result (Json.obj [])))

/-- Modelled from the specification wording of claim C3: the callback
arguments the claim predicts, branching on mere presence of the `error`
field and defaulting the result only when the `result` field is absent. -/
def claimedReplyInvocation (m : Message) : Bool × Option Json :=
  match m.error with
  | some e => (true, some e)
  | none => (false, some (match m.result with | some r => r | none => Json.obj []))

/-- Modelled from the specification wording of claim C6: the displayed
message the claim predicts, with the data detail appended whenever the
`data` field is present. -/
def specDisplayedMessage (response : Option Json) : String :=
  let msgField := match response with | some j => jsGetField j "message" | none => none
  let dataField := match response with | some j => jsGetField j "data" | none => none
  match dataField with
  | some d => (match msgField with | some j => jsToString j | none => "")
      ++ " (" ++ jsToString d ++ ")"
  | none => match msgField with | some j => jsToString j | none => ""

/-- Modelled from the specification wording of claim C8: prefer the first
page-typed entry that has a `webSocketDebuggerUrl` property, else the
first entry with that property, else fail. -/
def specDefaultTarget (targets : List Target) : Except String Target :=
  match targets.find? (fun t => t.webSocketDebuggerUrl.isSome && t.type == "page") with
  | some t => .ok t
  | none =>
    match targets.find? (fun t => t.webSocketDebuggerUrl.isSome) with
    | some t => .ok t
    | none => .error "No inspectable targets"

/-!
Decimal rendering facts: `decimalDigits` equals the fuel-driven
`Nat.toDigitsCore` behind `Nat.repr` and is inverted by `decimalValue`,
giving injectivity of the id-to-key rendering.
-/


theorem toDigitsCore_eq_decimalDigits :
    ∀ (f n : Nat) (acc : List Char), n < f →
      Nat.toDigitsCore 10 f n acc = decimalDigits n ++ acc := by
  intro f
  induction f with
  | zero => intro n acc h; omega
  | succ f ih =>
    intro n acc h
    by_cases hn : n / 10 = 0
    · have h10 : n < 10 := by omega
      rw [Nat.toDigitsCore]
      simp only [hn, if_pos]
      rw [decimalDigits]
      simp [h10, Nat.mod_eq_of_lt h10]
    · have h10 : 10 ≤ n := by omega
      have hlt : n / 10 < f := by
        have := Nat.div_lt_self (by omega : 0 < n) (by omega : 1 < 10)
        omega
      rw [Nat.toDigitsCore]
      simp only [hn, if_neg, if_false]
      rw [ih (n / 10) (Nat.digitChar (n % 10) :: acc) hlt]
      conv_rhs => rw [decimalDigits]
      rw [if_neg (show ¬n < 10 by omega), List.append_assoc]
      rfl

theorem natRepr_eq_decimalDigits (n : Nat) : Nat.repr n = (decimalDigits n).asString := by
  show (Nat.toDigits 10 n).asString = _
  rw [Nat.toDigits, toDigitsCore_eq_decimalDigits (n + 1) n [] (Nat.lt_succ_self n),
    List.append_nil]

theorem digitChar_val (d : Nat) (h : d < 10) : (Nat.digitChar d).toNat - 48 = d := by
  interval_cases d <;> rfl

theorem decimalValue_digits (n : Nat) : decimalValue (decimalDigits n) = n := by
  induction n using Nat.strong_induction_on with
  | _ n ih =>
    by_cases h : n < 10
    · rw [decimalDigits]
      simp [h, decimalValue, digitChar_val n h]
    · rw [decimalDigits]
      simp only [h, if_false]
      have hmod : n % 10 < 10 := Nat.mod_lt n (by omega)
      have hdiv : n / 10 < n := Nat.div_lt_self (by omega) (by omega)
      unfold decimalValue
      rw [List.foldl_append]
      show decimalValue (decimalDigits (n / 10)) * 10 + ((Nat.digitChar (n % 10)).toNat - 48) = n
      rw [ih (n / 10) hdiv, digitChar_val (n % 10) hmod]
      omega

theorem natRepr_injective {m n : Nat} (h : Nat.repr m = Nat.repr n) : m = n := by
  rw [natRepr_eq_decimalDigits, natRepr_eq_decimalDigits] at h
  have hd : decimalDigits m = decimalDigits n := congrArg String.data h
  calc m = decimalValue (decimalDigits m) := (decimalValue_digits m).symm
    _ = decimalValue (decimalDigits n) := by rw [hd]
    _ = n := decimalValue_digits n

theorem idKey_eq_repr (n : Nat) : idKey n = Nat.repr n := rfl

theorem idKey_injective {m n : Nat} (h : idKey m = idKey n) : m = n :=
  natRepr_injective (by rwa [idKey_eq_repr, idKey_eq_repr] at h)

/-! Association list facts about the pending-callback dictionary. -/

theorem jsGet_cons_true (p : String × Nat) (rest : List (String × Nat)) (k : String)
    (h : (p.1 == k) = true) : jsGet (p :: rest) k = some p.2 := by
  simp [jsGet, List.find?_cons, h]

theorem jsGet_cons_false (p : String × Nat) (rest : List (String × Nat)) (k : String)
    (h : (p.1 == k) = false) : jsGet (p :: rest) k = jsGet rest k := by
  simp [jsGet, List.find?_cons, h]

theorem jsSet_append_of_absent (L : List (String × Nat)) (k : String) (v : Nat)
    (h : jsGet L k = none) : jsSet L k v = L ++ [(k, v)] := by
  induction L with
  | nil => rfl
  | cons p rest ih =>
    cases hp : p.1 == k with
    | true =>
      rw [jsGet_cons_true p rest k hp] at h
      exact Option.noConfusion h
    | false =>
      rw [jsGet_cons_false p rest k hp] at h
      show (if (p.1 == k) = true then (k, v) :: rest else p :: jsSet rest k v) = _
      rw [hp, if_neg (by simp), ih h, List.cons_append]

theorem jsGet_append_of_absent (L1 L2 : List (String × Nat)) (k : String)
    (h : jsGet L1 k = none) : jsGet (L1 ++ L2) k = jsGet L2 k := by
  induction L1 with
  | nil => rfl
  | cons p rest ih =>
    cases hp : p.1 == k with
    | true =>
      rw [jsGet_cons_true p rest k hp] at h
      exact Option.noConfusion h
    | false =>
      rw [jsGet_cons_false p rest k hp] at h
      rw [List.cons_append, jsGet_cons_false p (rest ++ L2) k hp]
      exact ih h

theorem jsGet_singleton_of_ne (k1 k2 : String) (v : Nat) (h : ¬(k1 = k2)) :
    jsGet [(k1, v)] k2 = none := by
  have hb : (k1 == k2) = false := beq_eq_false_iff_ne.mpr h
  show jsGet ((k1, v) :: []) k2 = none
  rw [jsGet_cons_false (k1, v) [] k2 hb]
  rfl

theorem jsGet_jsDelete_same (L : List (String × Nat)) (k : String) :
    jsGet (jsDelete L k) k = none := by
  induction L with
  | nil => rfl
  | cons p rest ih =>
    cases hp : p.1 == k with
    | true =>
      have hbne : (p.1 != k) = false := by simp [bne, hp]
      have hdel : jsDelete (p :: rest) k = jsDelete rest k := by
        simp [jsDelete, List.filter_cons, hbne]
      rw [hdel]
      exact ih
    | false =>
      have hbne : (p.1 != k) = true := by simp [bne, hp]
      have hdel : jsDelete (p :: rest) k = p :: jsDelete rest k := by
        simp [jsDelete, List.filter_cons, hbne]
      rw [hdel, jsGet_cons_false p (jsDelete rest k) k hp]
      exact ih

theorem jsGet_some_ne_nil {L : List (String × Nat)} {k : String} {cb : Nat}
    (h : jsGet L k = some cb) : L ≠ [] := by
  intro hnil
  rw [hnil] at h
  simp [jsGet] at h

theorem jsGet_expectedCallbacks (cbs : List Nat) :
    ∀ (startId k : Nat),
      jsGet (expectedCallbacks startId cbs) (idKey (startId + k)) = cbs[k]? := by
  induction cbs with
  | nil => intro s k; simp [expectedCallbacks, jsGet]
  | cons cb rest ih =>
    intro s k
    cases k with
    | zero => simp [expectedCallbacks, jsGet]
    | succ k =>
      have hne : ((idKey s, cb).1 == idKey (s + (k + 1))) = false := by
        apply beq_eq_false_iff_ne.mpr
        intro hcontra
        have := idKey_injective hcontra
        omega
      show jsGet ((idKey s, cb) :: expectedCallbacks (s + 1) rest) (idKey (s + (k + 1))) =
        (cb :: rest)[k + 1]?
      rw [jsGet_cons_false (idKey s, cb) (expectedCallbacks (s + 1) rest) _ hne,
        List.getElem?_cons_succ]
      have harg : s + (k + 1) = (s + 1) + k := by omega
      rw [harg]
      exact ih (s + 1) k

/-- Closed form of a burst of successful `send` calls: starting from
counter `n` with a pending map free of keys of ids at or above `n`, the
calls allocate exactly the ids `n, n + 1, ...` in order and append their
callbacks to the pending map under those keys. -/
theorem runSendsTrace_closed :
    ∀ (sends : List (String × Option Json × Nat)) (n : Nat) (L : List (String × Nat)),
      (∀ m, n ≤ m → jsGet L (idKey m) = none) →
      runSendsTrace sends ⟨n, L⟩ =
        (⟨n + sends.length, L ++ expectedCallbacks n (sends.map (fun s => s.2.2))⟩,
         List.range' n sends.length) := by
  intro sends
  induction sends with
  | nil =>
    intro n L h
    simp [runSendsTrace, expectedCallbacks]
  | cons s rest ih =>
    obtain ⟨method, params, cb⟩ := s
    intro n L h
    have hstep : (send method params cb .ok ⟨n, L⟩).state = ⟨n + 1, L ++ [(idKey n, cb)]⟩ := by
      show (⟨n + 1, jsSet L (idKey n) cb⟩ : ChromeState) = _
      rw [jsSet_append_of_absent L (idKey n) cb (h n (Nat.le_refl n))]
    have hfresh : ∀ m, n + 1 ≤ m → jsGet (L ++ [(idKey n, cb)]) (idKey m) = none := by
      intro m hm
      rw [jsGet_append_of_absent L [(idKey n, cb)] (idKey m) (h m (by omega))]
      apply jsGet_singleton_of_ne
      intro hcontra
      have := idKey_injective hcontra
      omega
    have hunfold : runSendsTrace ((method, params, cb) :: rest) ⟨n, L⟩ =
        ((runSendsTrace rest (send method params cb .ok ⟨n, L⟩).state).1,
          n :: (runSendsTrace rest (send method params cb .ok ⟨n, L⟩).state).2) := rfl
    rw [hunfold, hstep, ih (n + 1) (L ++ [(idKey n, cb)]) hfresh]
    simp only [List.map_cons, List.length_cons, List.range'_succ, expectedCallbacks,
      List.append_assoc, List.singleton_append]
    rw [show n + 1 + rest.length = n + (rest.length + 1) from by omega]

/-- Support fact: the `v || d` default yields the default exactly on falsy
input. -/
theorem jsOrDefault_falsy {v : Option Json} {d : Json} (h : fieldTruthy v = false) :
    jsOrDefault v d = d := by
  cases v with
  | none => rfl
  | some j =>
    have h2 : jsTruthy j = false := h
    simp [jsOrDefault, h2]

/-- Claim C1, counterexample to the claim as stated.  The claim requires
remove-then-invoke: the id must leave the pending map before or atomically
with the callback invocation, so that the callback can never observe its
own id as pending.  In the code (chrome.js lines 279-285) the callback is
invoked first and the map entry is deleted afterwards: processing the
reply with id 1 against a pending map holding id 1 produces the step list
invoke-remove-ready, and at the moment the invoke step executes the
pending map still contains id 1 (the lookup at the invoke-time state
yields callback 7), refuting the claim at this input. -/
theorem c1_remove_then_invoke_counterexample :
    ((handleMessageTrace { id := some (Json.num 1), result := some (Json.obj []) }
        ⟨2, [("1", 7)]⟩).1.map (fun p => p.2) =
      [RouterAction.invokeCallback 7 (CbFirstArg.flag false) (some (Json.obj [])),
       RouterAction.removeCallback "1", RouterAction.emitReady])
    ∧ ((handleMessageTrace { id := some (Json.num 1), result := some (Json.obj []) }
        ⟨2, [("1", 7)]⟩).1.head?.map (fun p => jsGet p.1.callbacks "1") = some (some 7)) :=
  ⟨rfl, rfl⟩

/-- Claim C1, amended: when an inbound reply matches a pending command,
the router invokes the callback first and removes the id immediately
afterwards (invoke-then-remove), so during its own invocation the callback
still observes its id in the pending map; the removal happens directly
after the invocation, before the ready check, and the id is gone from the
pending map once processing completes. -/
theorem c1_invoke_then_remove :
    ∀ (m : Message) (st : ChromeState) (idv : Json) (cb : Nat),
      m.id = some idv → jsTruthy idv = true →
      jsGet st.callbacks (jsToString idv) = some cb →
      (((handleMessageTrace m st).1.map (fun p => p.2)).take 2 =
        [RouterAction.invokeCallback cb (replyInvocationArgs m).1 (replyInvocationArgs m).2,
         RouterAction.removeCallback (jsToString idv)])
      ∧ ((handleMessageTrace m st).1.head?.map (fun p => jsGet p.1.callbacks (jsToString idv)) =
          some (some cb))
      ∧ jsGet (handleMessageTrace m st).2.callbacks (jsToString idv) = none := by
  intro m st idv cb hid htr hget
  by_cases herr : fieldTruthy m.error <;>
    by_cases hlen : (jsDelete st.callbacks (jsToString idv)).length = 0 <;>
      simp [handleMessageTrace, hid, htr, hget, herr, hlen, replyInvocationArgs,
        jsGet_jsDelete_same]

/-- Witness for the amended claim C1 at a concrete reply and state. -/
theorem c1_invoke_then_remove_witness :
    (((handleMessageTrace { id := some (Json.num 1), result := some (Json.obj []) }
        ⟨2, [("1", 7)]⟩).1.map (fun p => p.2)).take 2 =
      [RouterAction.invokeCallback 7 (CbFirstArg.flag false) (some (Json.obj [])),
       RouterAction.removeCallback "1"])
    ∧ ((handleMessageTrace { id := some (Json.num 1), result := some (Json.obj []) }
        ⟨2, [("1", 7)]⟩).1.head?.map (fun p => jsGet p.1.callbacks "1") = some (some 7))
    ∧ jsGet (handleMessageTrace { id := some (Json.num 1), result := some (Json.obj []) }
        ⟨2, [("1", 7)]⟩).2.callbacks "1" = none :=
  c1_invoke_then_remove _ _ (Json.num 1) 7 rfl rfl rfl

/-- Claim C3, counterexample to the claim as stated.  The claim branches
on mere presence of the `error` field: for the reply carrying id 1 and
`error` set to null, `claimedReplyInvocation` predicts the error branch
with payload null, but the code tests truthiness (`if (message.error)`,
line 279), finds null falsy, and invokes the success branch with the empty
object default; the predicted and actual branch flags differ. -/
theorem c3_error_field_counterexample :
    ((handleMessage { id := some (Json.num 1), error := some Json.null }
        ⟨2, [("1", 0)]⟩).2.head? =
      some (RouterAction.invokeCallback 0 (CbFirstArg.flag false) (some (Json.obj []))))
    ∧ claimedReplyInvocation { id := some (Json.num 1), error := some Json.null } =
        (true, some Json.null)
    ∧ ¬((CbFirstArg.flag false) = (CbFirstArg.flag true)) :=
  ⟨rfl, rfl, by decide⟩

/-- Claim C3, amended: for every inbound message carrying a truthy id with
a pending callback registered, a truthy `error` field selects the error
branch carrying that field, and otherwise the success branch runs with the
`result` field when that is truthy and with the empty object when `result`
is absent or falsy; in particular a bare reply with only an id completes
the command successfully with the empty object. -/
theorem c3_truthy_error_branching :
    ∀ (m : Message) (st : ChromeState) (idv : Json) (cb : Nat),
      m.id = some idv → jsTruthy idv = true →
      jsGet st.callbacks (jsToString idv) = some cb →
      (∀ e, m.error = some e → jsTruthy e = true →
        (handleMessage m st).2.head? =
          some (RouterAction.invokeCallback cb (CbFirstArg.flag true) (some e)))
      ∧ (fieldTruthy m.error = false → ∀ r, m.result = some r → jsTruthy r = true →
        (handleMessage m st).2.head? =
          some (RouterAction.invokeCallback cb (CbFirstArg.flag false) (some r)))
      ∧ (fieldTruthy m.error = false → fieldTruthy m.result = false →
        (handleMessage m st).2.head? =
          some (RouterAction.invokeCallback cb (CbFirstArg.flag false) (some (Json.obj [])))) := by
  intro m st idv cb hid htr hget
  refine ⟨?_, ?_, ?_⟩
  · intro e he hte
    have herr : fieldTruthy m.error = true := by rw [he]; exact hte
    by_cases hlen : (jsDelete st.callbacks (jsToString idv)).length = 0 <;>
      simp [handleMessage, handleMessageTrace, hid, htr, hget, herr, he, hlen,
        fieldTruthy, hte]
  · intro hf r hr htr2
    by_cases hlen : (jsDelete st.callbacks (jsToString idv)).length = 0 <;>
      simp [handleMessage, handleMessageTrace, hid, htr, hget, hf, hr, htr2, jsOrDefault, hlen]
  · intro hf hres
    have hpay : jsOrDefault m.result (Json.obj []) = Json.obj [] := jsOrDefault_falsy hres
    by_cases hlen : (jsDelete st.callbacks (jsToString idv)).length = 0 <;>
      simp [handleMessage, handleMessageTrace, hid, htr, hget, hf, hpay, hlen]

/-- Witness for the amended claim C3: the bare reply with id 1 and neither
result nor error completes the pending command successfully with the empty
object. -/
theorem c3_truthy_error_branching_witness :
    (handleMessage { id := some (Json.num 1) } ⟨2, [("1", 5)]⟩).2.head? =
      some (RouterAction.invokeCallback 5 (CbFirstArg.flag false) (some (Json.obj []))) :=
  (c3_truthy_error_branching { id := some (Json.num 1) } ⟨2, [("1", 5)]⟩
    (Json.num 1) 5 rfl rfl rfl).2.2 rfl rfl

/-- Claim C10: an inbound message carrying a truthy id is always processed
as a command reply and never as an event, even when it also carries a
method field; none of its actions is an event emission, and when the id is
unknown to the pending map the message is dropped silently, with no signal
and no callback invocation and no state change. -/
theorem c10_id_replies_never_events :
    ∀ (m : Message) (st : ChromeState) (idv : Json),
      m.id = some idv → jsTruthy idv = true →
      ((handleMessage m st).2.all (fun a => !a.isEventEmission) = true)
      ∧ (jsGet st.callbacks (jsToString idv) = none → handleMessage m st = (st, [])) := by
  intro m st idv hid htr
  constructor
  · cases hget : jsGet st.callbacks (jsToString idv) with
    | none => simp [handleMessage, handleMessageTrace, hid, htr, hget]
    | some cb =>
      by_cases herr : fieldTruthy m.error <;>
        by_cases hlen : (jsDelete st.callbacks (jsToString idv)).length = 0 <;>
          simp [handleMessage, handleMessageTrace, hid, htr, hget, herr, hlen,
            RouterAction.isEventEmission]
  · intro hget
    simp [handleMessage, handleMessageTrace, hid, htr, hget]

/-- Witness for claim C10: a message with the unknown id 5 and a method
field is dropped silently, emitting nothing. -/
theorem c10_id_replies_never_events_witness :
    ((handleMessage { id := some (Json.num 5), method := some (Json.str "Foo.bar") } initialChrome).2.all (fun a => !a.isEventEmission) = true)
    ∧ handleMessage { id := some (Json.num 5), method := some (Json.str "Foo.bar") } initialChrome = (initialChrome, []) :=
  ⟨(c10_id_replies_never_events { id := some (Json.num 5), method := some (Json.str "Foo.bar") } initialChrome (Json.num 5) rfl rfl).1,
    (c10_id_replies_never_events { id := some (Json.num 5), method := some (Json.str "Foo.bar") } initialChrome (Json.num 5) rfl rfl).2 rfl⟩

/-- Claim C4, counterexample to the claim as stated.  The claim requires
every malformed inbound message, including text unparseable as JSON, to be
dropped without effect.  The message handler of `_connect` (lines 256-259)
calls `JSON.parse` with no exception handling, so an unparseable text
makes the handler throw instead of returning normally: the outcome is an
exception, not the silent no-effect drop the claim predicts. -/
theorem c4_unparseable_counterexample :
    onMessageData none initialChrome = Except.error ()
    ∧ ¬(onMessageData none initialChrome = Except.ok (initialChrome, [])) :=
  ⟨rfl, by simp [onMessageData]⟩

/-- Claim C4, amended: a parsed inbound message carrying neither an id nor
a method is dropped without effect (no callback invocation, no signal, no
state change), while an unparseable text makes `JSON.parse` throw inside
the message handler: the exception propagates out of the handler, which
still invokes no pending callback and emits no signal, but the message is
not silently dropped. -/
theorem c4_malformed_dropped :
    ∀ (st : ChromeState) (m : Message),
      (onMessageData none st = Except.error ())
      ∧ (m.id = none → m.method = none → onMessageData (some m) st = Except.ok (st, [])) := by
  intro st m
  refine ⟨rfl, ?_⟩
  intro hid hm
  simp [onMessageData, handleMessage, handleMessageTrace, eventBranch, hid, hm]

/-- Witness for the amended claim C4 at a concrete message with neither id
nor method. -/
theorem c4_malformed_dropped_witness :
    onMessageData none initialChrome = Except.error ()
    ∧ onMessageData (some { params := some (Json.str "x") }) initialChrome =
        Except.ok (initialChrome, []) :=
  ⟨(c4_malformed_dropped initialChrome { params := some (Json.str "x") }).1,
    (c4_malformed_dropped initialChrome { params := some (Json.str "x") }).2 rfl rfl⟩

/-- Claim C5: for every command sent with a callback, an acknowledged
transmission failure invokes the callback immediately with the low-level
error and adds no entry to the pending map, while a successful
transmission registers the callback in the pending map under the key of
the allocated id with no immediate invocation; in both cases the counter
advances and the call itself returns undefined. -/
theorem c5_transmission_ack_contract :
    ∀ (method : String) (params : Option Json) (cb : Nat) (st : ChromeState) (e : String),
      (send method params cb (SendAck.fail e) st =
        ⟨⟨st.nextCommandId + 1, st.callbacks⟩,
          [RouterAction.invokeCallback cb (CbFirstArg.errorObj e) none], none⟩)
      ∧ (send method params cb SendAck.ok st =
        ⟨⟨st.nextCommandId + 1, jsSet st.callbacks (idKey st.nextCommandId) cb⟩, [], none⟩) :=
  fun _ _ _ _ _ => ⟨rfl, rfl⟩

/-- Claim C7: processing one inbound message emits the `ready` signal
exactly once when it takes the pending map from non-empty to empty, and
never otherwise; in particular `ready` never fires while a command is
still outstanding in the map. -/
theorem c7_ready_iff_emptied :
    ∀ (m : Message) (st : ChromeState),
      ((handleMessage m st).2.filter RouterAction.isReady).length =
        (if st.callbacks ≠ [] ∧ (handleMessage m st).1.callbacks = [] then 1 else 0) := by
  intro m st
  cases hid : m.id with
  | none =>
    cases hm : m.method with
    | none => simp [handleMessage, handleMessageTrace, eventBranch, hid, hm]
    | some mv =>
      by_cases htr : jsTruthy mv <;>
        simp [handleMessage, handleMessageTrace, eventBranch, hid, hm, htr,
          RouterAction.isReady]
  | some idv =>
    by_cases htr : jsTruthy idv
    · cases hget : jsGet st.callbacks (jsToString idv) with
      | none => simp [handleMessage, handleMessageTrace, hid, htr, hget]
      | some cb =>
        have hne : st.callbacks ≠ [] := jsGet_some_ne_nil hget
        by_cases herr : fieldTruthy m.error <;>
          by_cases hlen : (jsDelete st.callbacks (jsToString idv)).length = 0 <;>
            simp only [List.length_eq_zero] at hlen <;>
              simp [handleMessage, handleMessageTrace, hid, htr, hget, herr, hlen, hne,
                RouterAction.isReady, List.length_eq_zero]
    · cases hm : m.method with
      | none => simp [handleMessage, handleMessageTrace, eventBranch, hid, htr, hm]
      | some mv =>
        by_cases htm : jsTruthy mv <;>
          simp [handleMessage, handleMessageTrace, eventBranch, hid, htr, hm, htm,
            RouterAction.isReady]

/-- Support fact: a matched reply with falsy error field and truthy
result r invokes exactly the registered callback, in the success branch
with payload r, and no other callback. -/
theorem replySuccessInvoke (m : Message) (st : ChromeState) (idv : Json) (cb : Nat) (r : Json)
    (hid : m.id = some idv) (htr : jsTruthy idv = true)
    (hget : jsGet st.callbacks (jsToString idv) = some cb)
    (herr : fieldTruthy m.error = false) (hres : m.result = some r) (hr : jsTruthy r = true) :
    (handleMessage m st).2.filter RouterAction.isInvoke =
      [RouterAction.invokeCallback cb (CbFirstArg.flag false) (some r)] := by
  by_cases hlen : (jsDelete st.callbacks (jsToString idv)).length = 0 <;>
    simp [handleMessage, handleMessageTrace, hid, htr, hget, herr, hres, hr, jsOrDefault, hlen,
      RouterAction.isInvoke]

/-- Claim C2: a sequence of `send` calls on one session allocates the
correlation ids 1, 2, 3, ... in order (strictly increasing from 1, never
reused), the pending map afterwards holds exactly one callback per
allocated id in order, the counter stands one past the last id, and the
reply carrying id k + 1 invokes exactly the callback registered by the
(k + 1)-st send and no other. -/
theorem c2_ids_strictly_increasing_and_routing :
    ∀ (sends : List (String × Option Json × Nat)),
      ((runSendsTrace sends initialChrome).2 = List.range' 1 sends.length)
      ∧ ((runSendsTrace sends initialChrome).1.nextCommandId = 1 + sends.length)
      ∧ ((runSendsTrace sends initialChrome).1.callbacks =
          expectedCallbacks 1 (sends.map (fun s => s.2.2)))
      ∧ (∀ (k cb : Nat) (r : Json),
          (sends.map (fun s => s.2.2))[k]? = some cb → jsTruthy r = true →
          (handleMessage { id := some (Json.num (Int.ofNat (k + 1))), result := some r }
              (runSendsTrace sends initialChrome).1).2.filter RouterAction.isInvoke =
            [RouterAction.invokeCallback cb (CbFirstArg.flag false) (some r)]) := by
  intro sends
  have hfresh : ∀ m, 1 ≤ m → jsGet ([] : List (String × Nat)) (idKey m) = none :=
    fun _ _ => rfl
  have hclosed := runSendsTrace_closed sends 1 [] hfresh
  have hinit : initialChrome = (⟨1, []⟩ : ChromeState) := rfl
  refine ⟨?_, ?_, ?_, ?_⟩
  · rw [hinit, hclosed]
  · rw [hinit, hclosed]
  · rw [hinit, hclosed]; exact congrArg _ (List.nil_append _)
  · intro k cb r hk hr
    have hstate : (runSendsTrace sends initialChrome).1.callbacks =
        expectedCallbacks 1 (sends.map (fun s => s.2.2)) := by
      rw [hinit, hclosed]; exact List.nil_append _
    have hkey : jsGet (runSendsTrace sends initialChrome).1.callbacks
        (jsToString (Json.num (Int.ofNat (k + 1)))) = some cb := by
      show jsGet (runSendsTrace sends initialChrome).1.callbacks (idKey (k + 1)) = some cb
      rw [hstate]
      have hlook := jsGet_expectedCallbacks (sends.map (fun s => s.2.2)) 1 k
      rw [show (1 : Nat) + k = k + 1 from by omega] at hlook
      rw [hlook, hk]
    have htid : jsTruthy (Json.num (Int.ofNat (k + 1))) = true := by
      simp [jsTruthy]
      omega
    exact replySuccessInvoke _ _ (Json.num (Int.ofNat (k + 1))) cb r rfl htid hkey rfl rfl hr

/-- Witness for claim C2: two sends allocate ids 1 and 2, and the reply
with id 2 invokes exactly the second callback. -/
theorem c2_ids_strictly_increasing_and_routing_witness :
    ((runSendsTrace [("DOM.enable", none, 10), ("Page.enable", none, 20)] initialChrome).2 =
      [1, 2])
    ∧ ((handleMessage { id := some (Json.num 2), result := some (Json.str "x") }
        (runSendsTrace [("DOM.enable", none, 10), ("Page.enable", none, 20)]
          initialChrome).1).2.filter RouterAction.isInvoke =
        [RouterAction.invokeCallback 20 (CbFirstArg.flag false) (some (Json.str "x"))]) := by
  have h := c2_ids_strictly_increasing_and_routing
    [("DOM.enable", none, 10), ("Page.enable", none, 20)]
  exact ⟨h.1, h.2.2.2 1 20 (Json.str "x") rfl rfl⟩

/-- Claim C6, counterexample to the claim as stated.  The claim says the
displayed message is augmented with the data detail whenever the `data`
field is present; for the remote error response with message bad and an
empty-string `data` field the claim predicts the augmented rendering while
the constructor tests truthiness (`if (response.data)`, line 18), finds
the empty string falsy, and leaves the message unaugmented. -/
theorem c6_data_field_counterexample :
    protocolErrorMessage
        (some (Json.obj [("message", Json.str "bad"), ("data", Json.str "")])) = "bad"
    ∧ specDisplayedMessage
        (some (Json.obj [("message", Json.str "bad"), ("data", Json.str "")])) = "bad ()"
    ∧ ¬(("bad" : String) = "bad ()") :=
  ⟨rfl, rfl, by decide⟩

/-- Claim C6, amended: the promise of a callback-less `sendRaw` fulfills
with the reply payload on success, rejects with the raw low-level error on
transmission failure, and rejects with a constructed protocol error when
the remote replied with a truthy error field; the protocol error carries
the original request and the full remote error response, and its displayed
message is the remote message augmented with the data detail exactly when
the `data` field is present with a truthy value.  The last conjunct links
the router to the settlement: a matched reply with truthy error invokes
the pending callback in the error branch with that error value. -/
theorem c6_promise_contract :
    ∀ (req m2 : Message) (st : ChromeState) (idv : Json) (cb : Nat) (e : String)
      (r errv d : Json) (msg : String),
      (promiseSettle req (CbFirstArg.errorObj e) none = PromiseOutcome.rejectedError e)
      ∧ (promiseSettle req (CbFirstArg.flag false) (some r) = PromiseOutcome.fulfilled (some r))
      ∧ (promiseSettle req (CbFirstArg.flag true) (some errv) =
          PromiseOutcome.rejectedProtocol ⟨protocolErrorMessage (some errv), req, some errv⟩)
      ∧ (protocolErrorMessage (some (Json.obj [("message", Json.str msg)])) = msg)
      ∧ (jsTruthy d = true →
          protocolErrorMessage (some (Json.obj [("message", Json.str msg), ("data", d)])) =
            msg ++ " (" ++ jsToString d ++ ")")
      ∧ (m2.id = some idv → jsTruthy idv = true → m2.error = some errv → jsTruthy errv = true →
          jsGet st.callbacks (jsToString idv) = some cb →
          (handleMessage m2 st).2.head? =
            some (RouterAction.invokeCallback cb (CbFirstArg.flag true) (some errv))) := by
  intro req m2 st idv cb e r errv d msg
  refine ⟨rfl, rfl, rfl, rfl, ?_, ?_⟩
  · intro hd
    simp [protocolErrorMessage, jsGetField, fieldTruthy, hd, jsToString]
  · intro hid htr he hte hget
    have herr : fieldTruthy m2.error = true := by rw [he]; exact hte
    by_cases hlen : (jsDelete st.callbacks (jsToString idv)).length = 0 <;>
      simp [handleMessage, handleMessageTrace, hid, htr, hget, herr, he, hlen, fieldTruthy, hte]

/-- Witness for the amended claim C6: the specification round trip.  The
reply with id 1 and error message bad invokes the pending callback in the
error branch, the settlement rejects with a protocol error carrying the
request and the response, the displayed message is bad, and a truthy data
detail is appended in parentheses. -/
theorem c6_promise_contract_witness :
    ((handleMessage { id := some (Json.num 1), error := some (Json.obj [("message", Json.str "bad")]) } ⟨2, [("1", 0)]⟩).2.head? =
      some (RouterAction.invokeCallback 0 (CbFirstArg.flag true)
        (some (Json.obj [("message", Json.str "bad")]))))
    ∧ (promiseSettle { method := some (Json.str "Foo.bar") } (CbFirstArg.flag true)
        (some (Json.obj [("message", Json.str "bad")])) =
        PromiseOutcome.rejectedProtocol
          ⟨protocolErrorMessage (some (Json.obj [("message", Json.str "bad")])),
            { method := some (Json.str "Foo.bar") },
            some (Json.obj [("message", Json.str "bad")])⟩)
    ∧ (protocolErrorMessage (some (Json.obj [("message", Json.str "bad")])) = "bad")
    ∧ (protocolErrorMessage
        (some (Json.obj [("message", Json.str "bad"), ("data", Json.str "detail")])) =
        "bad" ++ " (" ++ jsToString (Json.str "detail") ++ ")") := by
  have h := c6_promise_contract { method := some (Json.str "Foo.bar") }
    { id := some (Json.num 1), error := some (Json.obj [("message", Json.str "bad")]) }
    ⟨2, [("1", 0)]⟩ (Json.num 1) 0 "" Json.null
    (Json.obj [("message", Json.str "bad")]) (Json.str "detail") "bad"
  exact ⟨h.2.2.2.2.2 rfl rfl rfl rfl rfl, h.2.2.1, h.2.2.2.1, h.2.2.2.2.1 rfl⟩

/-- Support fact about the selector scan: the found component equals the
first entry with truthy debugger URL and page type, and when nothing is
found the backup component equals the incoming backup or, failing that,
the first entry with a truthy debugger URL. -/
theorem defaultTargetFind_spec :
    ∀ (ts : List Target) (backup : Option Target),
      ((defaultTargetFind ts backup).1 =
        ts.find? (fun t => wsUrlTruthy t && t.type == "page"))
      ∧ ((defaultTargetFind ts backup).1 = none →
          (defaultTargetFind ts backup).2 =
            (match backup with | some b => some b | none => ts.find? wsUrlTruthy)) := by
  intro ts
  induction ts with
  | nil =>
    intro backup
    exact ⟨rfl, fun _ => by cases backup <;> rfl⟩
  | cons t ts ih =>
    intro backup
    cases hw : wsUrlTruthy t with
    | false =>
      have h1 : defaultTargetFind (t :: ts) backup = defaultTargetFind ts backup := by
        simp [defaultTargetFind, hw]
      have h2 : List.find? (fun x => wsUrlTruthy x && x.type == "page") (t :: ts) =
          List.find? (fun x => wsUrlTruthy x && x.type == "page") ts := by
        simp [List.find?_cons, hw]
      have h3 : List.find? wsUrlTruthy (t :: ts) = List.find? wsUrlTruthy ts := by
        simp [List.find?_cons, hw]
      refine ⟨?_, ?_⟩
      · rw [h1, h2]; exact (ih backup).1
      · intro hnone
        rw [h1] at hnone ⊢
        rw [(ih backup).2 hnone]
        cases backup with
        | some b => rfl
        | none => rw [h3]
    | true =>
      cases hp : t.type == "page" with
      | true =>
        have h1 : defaultTargetFind (t :: ts) backup =
            (some t, match backup with | some b => some b | none => some t) := by
          simp [defaultTargetFind, hw, hp]
        have h2 : List.find? (fun x => wsUrlTruthy x && x.type == "page") (t :: ts) = some t := by
          simp [List.find?_cons, hw, hp]
        refine ⟨by rw [h1, h2], ?_⟩
        intro hnone
        rw [h1] at hnone
        exact absurd hnone (by simp)
      | false =>
        have h1 : defaultTargetFind (t :: ts) backup =
            defaultTargetFind ts (match backup with | some b => some b | none => some t) := by
          simp [defaultTargetFind, hw, hp]
        have h2 : List.find? (fun x => wsUrlTruthy x && x.type == "page") (t :: ts) =
            List.find? (fun x => wsUrlTruthy x && x.type == "page") ts := by
          simp [List.find?_cons, hw, hp]
        have h3 : List.find? wsUrlTruthy (t :: ts) = some t := by
          simp [List.find?_cons, hw]
        refine ⟨?_, ?_⟩
        · rw [h1, h2]
          exact (ih _).1
        · intro hnone
          rw [h1] at hnone ⊢
          rw [(ih _).2 hnone]
          cases backup with
          | some b => rfl
          | none => rw [h3]

/-- Claim C8, counterexample to the claim as stated.  The claim reads
having a `webSocketDebuggerUrl` as presence of the property: for the list
holding one page-typed target whose `webSocketDebuggerUrl` is the empty
string, the claim predicts that entry is selected, but the scan tests
truthiness (`if (target.webSocketDebuggerUrl)`, line 38), finds the empty
string falsy, records no candidate and no backup, and the selector fails
with the no-inspectable-targets error instead. -/
theorem c8_empty_url_counterexample :
    defaultTarget [⟨"a", "page", some ""⟩] = Except.error "No inspectable targets"
    ∧ specDefaultTarget [⟨"a", "page", some ""⟩] = Except.ok ⟨"a", "page", some ""⟩
    ∧ ¬((Except.error "No inspectable targets" : Except String Target) =
        Except.ok (⟨"a", "page", some ""⟩ : Target)) :=
  ⟨rfl, rfl, by simp⟩

/-- Claim C8, amended: the default selector returns the first entry whose
type is page and whose `webSocketDebuggerUrl` is present and truthy
(a non-empty string); failing that, the first entry of any type with a
truthy `webSocketDebuggerUrl`; and when no entry has a truthy
`webSocketDebuggerUrl` (including the empty list) it fails with the
no-inspectable-targets error. -/
theorem c8_default_target_selection :
    ∀ (ts : List Target),
      defaultTarget ts =
        match ts.find? (fun t => wsUrlTruthy t && t.type == "page") with
        | some t => Except.ok t
        | none =>
          match ts.find? wsUrlTruthy with
          | some t => Except.ok t
          | none => Except.error "No inspectable targets" := by
  intro ts
  have h := defaultTargetFind_spec ts none
  cases hfind : (defaultTargetFind ts none).1 with
  | some t =>
    have hf : ts.find? (fun t => wsUrlTruthy t && t.type == "page") = some t := by
      rw [← h.1]; exact hfind
    simp [defaultTarget, hfind, hf]
  | none =>
    have hf : ts.find? (fun t => wsUrlTruthy t && t.type == "page") = none := by
      rw [← h.1]; exact hfind
    have hb2 : (defaultTargetFind ts none).2 = ts.find? wsUrlTruthy := h.2 hfind
    simp only [defaultTarget, hfind, hf, hb2]

/-- Claim C9, counterexample to the claim as stated.  The claim says a
second `close` call still invokes both completion callbacks.  Starting
from the connected socket, calling close with callback 1 and then, while
the socket is still closing, close with callback 2 makes the second call
remove all close listeners including the once-listener holding callback 1
(line 229); when the close event then fires, only callback 2 runs and no
disconnect is emitted, so callback 1 is never invoked, refuting the
claim. -/
theorem c9_double_close_counterexample :
    ((closeWs 1 connectedWs).2 ++ (closeWs 2 (closeWs 1 connectedWs).1).2 ++
        (fireWsClose (closeWs 2 (closeWs 1 connectedWs).1).1).2 =
      [CloseAction.closeCallbackInvoked 2])
    ∧ ¬(CloseAction.closeCallbackInvoked 1 ∈ [CloseAction.closeCallbackInvoked 2]) :=
  ⟨rfl, by decide⟩

/-- Claim C9, amended: close never produces a disconnect signal for a
caller-initiated shutdown.  When the socket is already closed the
completion callback fires immediately; otherwise the transport suppresses
its own close notification, so a close followed by the close event yields
exactly the completion callback and no disconnect; a peer-initiated close
without a close call emits exactly one disconnect; and a second close
issued after the first has completed invokes both completion callbacks.
However, a second close issued while the first is still closing replaces
the pending completion callback, so the first callback is never invoked
(the counterexample), which is the one part of the stated claim that
fails. -/
theorem c9_close_contract :
    ∀ (cb cb1 cb2 : Nat) (L : List CloseListener) (rs : Nat),
      (closeWs cb ⟨3, L⟩ = (⟨3, L⟩, [CloseAction.closeCallbackInvoked cb]))
      ∧ (rs ≠ 3 →
          (closeWs cb ⟨rs, L⟩).2 ++ (fireWsClose (closeWs cb ⟨rs, L⟩).1).2 =
            [CloseAction.closeCallbackInvoked cb])
      ∧ (fireWsClose connectedWs = (⟨3, []⟩, [CloseAction.disconnectEmitted]))
      ∧ ((closeWs cb1 connectedWs).2 ++ (fireWsClose (closeWs cb1 connectedWs).1).2 ++
          (closeWs cb2 (fireWsClose (closeWs cb1 connectedWs).1).1).2 =
          [CloseAction.closeCallbackInvoked cb1, CloseAction.closeCallbackInvoked cb2]) := by
  intro cb cb1 cb2 L rs
  refine ⟨rfl, ?_, rfl, rfl⟩
  intro hrs
  have hb : (rs == 3) = false := beq_eq_false_iff_ne.mpr hrs
  simp [closeWs, fireWsClose, hb]

/-- Witness for the amended claim C9: with the socket open, one close call
followed by the close event invokes exactly the completion callback and
emits no disconnect. -/
theorem c9_close_contract_witness :
    (closeWs 7 ⟨3, [CloseListener.emitDisconnect]⟩ =
      (⟨3, [CloseListener.emitDisconnect]⟩, [CloseAction.closeCallbackInvoked 7]))
    ∧ ((closeWs 7 ⟨1, [CloseListener.emitDisconnect]⟩).2 ++
        (fireWsClose (closeWs 7 ⟨1, [CloseListener.emitDisconnect]⟩).1).2 =
        [CloseAction.closeCallbackInvoked 7]) := by
  have h := c9_close_contract 7 1 2 [CloseListener.emitDisconnect] 1
  exact ⟨h.1, h.2.1 (by decide)⟩
